import Mathlib

/-
Verification of the layered memory store and curation pipeline of DataWirx.

The development shallowly embeds `memory_store.py` (the layered store) and
`curator.py` (the promotion engine).  Python dicts become association lists
that preserve insertion order and update-in-place semantics; JSONL logs
become plain lists; side effects that produce values (UUID generation,
timestamps) become explicit oracle arguments threaded through the
operations; the LLM agentic loop of the curator is the opaque decision
oracle of the architecture, supplied as an explicit list of structured
decisions.  Confidence values are modelled as rationals.
-/

namespace DataWirx

/-- Embedding of Python `str.startswith`: prefix test on the character lists. -/
def strStartsWith (s pat : String) : Bool :=
  pat.data.isPrefixOf s.data

/-- Embedding of Python slicing `s[:n]`: the first `n` characters. -/
def strTake (s : String) (n : Nat) : String :=
  ⟨s.data.take n⟩

/-- A Canon entry, as built by `MemoryStore.write_canon` (memory_store.py,
lines 110-132).  The Python dict key "namespace" is called `nspace` here
because `namespace` is a Lean keyword. -/
structure CanonEntry where
  content : String
  source : String
  confidence : ℚ
  confirmed_by_user : Bool
  last_verified : String
  nspace : String
deriving DecidableEq

/-- A Buffer record, as built by `MemoryStore.add_to_buffer` (memory_store.py,
lines 138-161). -/
structure BufferRecord where
  id : String
  claim : String
  source : String
  agent : String
  task_id : String
  confidence : ℚ
  timestamp : String
  promoted : Bool
  dismissed : Bool
deriving DecidableEq

/-- A dispute record, as built by `MemoryStore.add_dispute` (memory_store.py,
lines 252-264). -/
structure Dispute where
  id : String
  buffer_id : String
  canon_id : String
  reason : String
  timestamp : String
  resolved : Bool
deriving DecidableEq

/-- One artifact value in a task record (memory_store.py, lines 229-237). -/
structure TaskArtifact where
  value : String
  timestamp : String
deriving DecidableEq

/-- A per-task ledger record (memory_store.py, lines 218-246). -/
structure TaskRecord where
  task_id : String
  prompt : String
  created : String
  artifacts : List (String × TaskArtifact)
  agent_outputs : List (String × String)
deriving DecidableEq

/-- A scratch note (memory_store.py, lines 199-212). -/
structure ScratchNote where
  note : String
  timestamp : String
deriving DecidableEq

/-- The logical state held by `MemoryStore`: the canon mapping (a dict keyed
by "namespace/key", kept as an insertion-ordered association list), the
buffer and dispute JSONL logs, the per-task ledgers, and the per
(agent, task) scratch files. -/
structure MemoryStore where
  canon : List (String × CanonEntry)
  buffer : List BufferRecord
  disputes : List Dispute
  tasks : List (String × TaskRecord)
  scratch : List ((String × String) × List ScratchNote)
deriving DecidableEq

/-- Python dict assignment `data[k] = v`: if the key is present the value is
replaced in place, otherwise the pair is appended at the end. -/
def dictInsert (k : String) (v : CanonEntry) (d : List (String × CanonEntry)) :
    List (String × CanonEntry) :=
  if d.any (fun p => p.1 == k) then
    d.map (fun p => if p.1 == k then (k, v) else p)
  else
    d ++ [(k, v)]

/-- Lookup in the canon mapping (Python `data[k]` / `k in data`). -/
def lookupCanon (d : List (String × CanonEntry)) (k : String) : Option CanonEntry :=
  (d.find? (fun p => p.1 == k)).map (fun p => p.2)

/-- Embedding of `MemoryStore.read_canon` (memory_store.py, lines 103-108).
`if namespace:` is Python truthiness, so both `None` and the empty string
skip the filter. -/
def read_canon (st : MemoryStore) (nspace : Option String) : List (String × CanonEntry) :=
  match nspace with
  | some ns => if ns = "" then st.canon else st.canon.filter (fun p => strStartsWith p.1 ns)
  | none => st.canon

/-- Embedding of `MemoryStore.write_canon` (memory_store.py, lines 110-132).
The timestamp produced by `_now()` is passed in as `now`.  Returns the new
state and the entry id. -/
def write_canon (st : MemoryStore) (nspace key content source : String)
    (confidence : ℚ) (confirmed_by_user : Bool) (now : String) : MemoryStore × String :=
  let entry_id := nspace ++ "/" ++ key
  let entry : CanonEntry :=
    { content := content, source := source, confidence := confidence,
      confirmed_by_user := confirmed_by_user, last_verified := now, nspace := nspace }
  ({ st with canon := dictInsert entry_id entry st.canon }, entry_id)

/-- Embedding of `MemoryStore.add_to_buffer` (memory_store.py, lines 138-161).
The generated `uuid.uuid4()` string and the `_now()` timestamp are passed in
as oracle arguments; the entry id is the first 8 characters of the UUID
string, exactly as `str(uuid.uuid4())[:8]`. -/
def add_to_buffer (st : MemoryStore) (claim source agent task_id : String)
    (confidence : ℚ) (uuid now : String) : MemoryStore × String :=
  let entry_id := strTake uuid 8
  let record : BufferRecord :=
    { id := entry_id, claim := claim, source := source, agent := agent,
      task_id := task_id, confidence := confidence, timestamp := now,
      promoted := false, dismissed := false }
  ({ st with buffer := st.buffer ++ [record] }, entry_id)

/-- Embedding of `MemoryStore.read_buffer` (memory_store.py, lines 163-174):
equality filters applied only for arguments that are not `None`. -/
def read_buffer (st : MemoryStore) (task_id : Option String) (promoted : Option Bool) :
    List BufferRecord :=
  let records := st.buffer
  let records :=
    match task_id with
    | some t => records.filter (fun r => r.task_id == t)
    | none => records
  match promoted with
  | some p => records.filter (fun r => r.promoted == p)
  | none => records

/-- Embedding of `MemoryStore.mark_buffer_promoted` (memory_store.py,
lines 185-188): rewrite the whole log, setting the flag on records whose id
matches. -/
def mark_buffer_promoted (st : MemoryStore) (entry_id : String) : MemoryStore :=
  { st with buffer :=
      st.buffer.map (fun r => if r.id == entry_id then { r with promoted := true } else r) }

/-- Embedding of `MemoryStore.mark_buffer_dismissed` (memory_store.py,
lines 190-193). -/
def mark_buffer_dismissed (st : MemoryStore) (entry_id : String) : MemoryStore :=
  { st with buffer :=
      st.buffer.map (fun r => if r.id == entry_id then { r with dismissed := true } else r) }

/-- Embedding of `MemoryStore.add_dispute` (memory_store.py, lines 252-264);
`uuid` and `now` are the effect oracles, the dispute id is the first 8
characters of the UUID string. -/
def add_dispute (st : MemoryStore) (buffer_id canon_id reason uuid now : String) :
    MemoryStore × String :=
  let dispute_id := strTake uuid 8
  let record : Dispute :=
    { id := dispute_id, buffer_id := buffer_id, canon_id := canon_id,
      reason := reason, timestamp := now, resolved := false }
  ({ st with disputes := st.disputes ++ [record] }, dispute_id)

/-- Input of the `promote_to_canon` curator tool (curator.py, lines 124-128):
a dict whose fields may each be absent; `inp.get(field, default)` becomes
`Option.getD`. -/
structure PromoteInput where
  entry_id : Option String
  nspace : Option String
  key : Option String
  confidence : Option ℚ
deriving DecidableEq

/-- Input of the `flag_conflict` curator tool (curator.py, lines 155-160). -/
structure FlagConflictInput where
  buffer_id : Option String
  canon_id : Option String
  reason : Option String
deriving DecidableEq

/-- Input of the `dismiss_buffer_entry` curator tool (curator.py,
lines 163-165). -/
structure DismissInput where
  entry_id : Option String
  reason : Option String
deriving DecidableEq

/-- A structured decision returned by the decision oracle and dispatched by
`MemoryCurator._dispatch` (curator.py, lines 115-122); `unknown` covers any
other tool name string. -/
inductive Decision where
  | promote (inp : PromoteInput)
  | flagConflict (inp : FlagConflictInput)
  | dismiss (inp : DismissInput)
  | unknown (toolName : String)
deriving DecidableEq

/-- Fixed two-decimal rendering of a confidence value, standing in for the
Python format `f"{confidence:.2f}"` in the promotion success message: the
value is scaled by 100 and rounded to the nearest integer via floor division
on numerator and denominator.  No theorem below depends on the exact
rounding mode of CPython float formatting. -/
def fmt2dp (c : ℚ) : String :=
  let n : Int := Int.fdiv (200 * c.num + c.den) (2 * c.den)
  let whole := n / 100
  let frac := (n % 100).natAbs
  toString whole ++ "." ++ (if frac < 10 then "0" else "") ++ toString frac

/-- The default confidence 0.7 of `inp.get("confidence", 0.7)` in
`MemoryCurator._promote`. -/
def defaultPromoteConfidence : ℚ := ⟨7, 10, by decide, by decide⟩

/-- Embedding of `MemoryCurator._promote` (curator.py, lines 124-153).
The `_now()` timestamp used by the inner `write_canon` call is the `now`
argument.  Returns the new store state and the per-decision result string. -/
def curator_promote (st : MemoryStore) (inp : PromoteInput) (now : String) :
    MemoryStore × String :=
  let entry_id := inp.entry_id.getD ""
  let nspace := inp.nspace.getD "facts"
  let key := inp.key.getD entry_id
  let confidence := inp.confidence.getD defaultPromoteConfidence
  let all_buffer := read_buffer st none none
  match all_buffer.find? (fun e => e.id == entry_id) with
  | none => (st, "[Curator] Entry \x27" ++ entry_id ++ "\x27 not found in buffer.")
  | some entry =>
    let existing := read_canon st (some nspace)
    let full_key := nspace ++ "/" ++ key
    if existing.any (fun p => p.1 == full_key) then
      (st, "[Curator] Canon[" ++ full_key ++
        "] already exists. Use flag_conflict if there is a discrepancy.")
    else
      let wr := write_canon st nspace key entry.claim
        ("buffer:" ++ entry.source ++ "|curator_promoted") confidence false now
      let st2 := mark_buffer_promoted wr.1 entry_id
      (st2, "[Curator] Promoted buffer:" ++ entry_id ++ " → Canon[" ++ wr.2 ++
        "] (conf=" ++ fmt2dp confidence ++ ")")

/-- Embedding of `MemoryCurator._flag_conflict` (curator.py, lines 155-161);
`uuid` and `now` are the effect oracles of the inner `add_dispute` call. -/
def curator_flag_conflict (st : MemoryStore) (inp : FlagConflictInput) (uuid now : String) :
    MemoryStore × String :=
  let r := add_dispute st (inp.buffer_id.getD "") (inp.canon_id.getD "")
    (inp.reason.getD "") uuid now
  (r.1, "[Curator] Conflict recorded as dispute " ++ r.2)

/-- Embedding of `MemoryCurator._dismiss` (curator.py, lines 163-167). -/
def curator_dismiss (st : MemoryStore) (inp : DismissInput) : MemoryStore × String :=
  let entry_id := inp.entry_id.getD ""
  let reason := inp.reason.getD "low quality or task-specific"
  (mark_buffer_dismissed st entry_id,
    "[Curator] Dismissed buffer:" ++ entry_id ++ " — " ++ reason)

/-- Embedding of `MemoryCurator._dispatch` (curator.py, lines 115-122). -/
def curator_dispatch (st : MemoryStore) (d : Decision) (uuid now : String) :
    MemoryStore × String :=
  match d with
  | .promote inp => curator_promote st inp now
  | .flagConflict inp => curator_flag_conflict st inp uuid now
  | .dismiss inp => curator_dismiss st inp
  | .unknown toolName => (st, "[Error] Unknown curator tool: " ++ toolName)

/-- Sequential application of the decisions issued by the oracle during the
agentic loop, each with its own `uuid`/`now` effect oracles, exactly as the
loop dispatches tool calls one at a time against the shared store. -/
def apply_decisions (st : MemoryStore)
    (ds : List (Decision × String × String)) : MemoryStore :=
  ds.foldl (fun s d => (curator_dispatch s d.1 d.2.1 d.2.2).1) st

/-- One call to the opaque decision oracle (the LLM agentic loop of
`BaseAgent._agentic_loop`): the sequence of tool decisions it issues, and
the final text it returns as the curation result. -/
structure OracleCall where
  decisions : List (Decision × String × String)
  finalText : String

/-- Embedding of `MemoryCurator.curate_task` (curator.py, lines 66-109):
select pending entries for the task; if none, return the no-op summary
without touching any store; otherwise run the decision oracle and apply its
decisions.  The evaluation prompt built from the selected entries is input
to the opaque oracle and does not affect the store, so it is not modelled
beyond the oracle call itself. -/
def curate_task (st : MemoryStore) (task_id : String) (oracle : OracleCall) :
    MemoryStore × String :=
  let pending := (read_buffer st (some task_id) (some false)).filter
    (fun e => !e.dismissed)
  if pending.isEmpty then
    (st, "[Curator] No buffer entries to curate for task " ++ task_id ++ ".")
  else
    (apply_decisions st oracle.decisions, oracle.finalText)

/-- Whether a decision is a promote decision whose resolved target id is `i`
(curator.py resolves the target as `inp.get("entry_id", "")`). -/
def promoteTargets (d : Decision) (i : String) : Bool :=
  match d with
  | .promote inp => inp.entry_id.getD "" == i
  | _ => false

/-- Whether a decision is a dismiss decision whose resolved target id is `i`. -/
def dismissTargets (d : Decision) (i : String) : Bool :=
  match d with
  | .dismiss inp => inp.entry_id.getD "" == i
  | _ => false

/-- Confidence value 0.5, used by the sample states below. -/
def halfConf : ℚ := ⟨1, 2, by decide, by decide⟩

/-- Confidence value 0.8, used by the sample states below. -/
def sampleConf : ℚ := ⟨4, 5, by decide, by decide⟩

/-- A sample pending buffer entry (task T1, claim "X=5"). -/
def sampleEntry : BufferRecord :=
  { id := "aaaa0001", claim := "X=5", source := "web_search", agent := "ResearchAgent",
    task_id := "T1", confidence := halfConf, timestamp := "t0",
    promoted := false, dismissed := false }

/-- A sample store holding exactly the one pending entry `sampleEntry`. -/
def samplePending : MemoryStore :=
  { canon := [], buffer := [sampleEntry], disputes := [], tasks := [], scratch := [] }

/-- A sample canon entry stored under the key "facts/X". -/
def sampleCanonEntry : CanonEntry :=
  { content := "X=4", source := "system_init", confidence := 1,
    confirmed_by_user := false, last_verified := "t0", nspace := "facts" }

/-- A sample store where "facts/X" is already canon and `sampleEntry` is
still pending. -/
def sampleConflict : MemoryStore :=
  { canon := [("facts/X", sampleCanonEntry)], buffer := [sampleEntry],
    disputes := [], tasks := [], scratch := [] }

/-- A sample store whose only entry for task T1 is already promoted. -/
def samplePromotedOnly : MemoryStore :=
  { canon := [], buffer := [{ sampleEntry with promoted := true }],
    disputes := [], tasks := [], scratch := [] }

/-- A sample canon entry living in the namespace "identity_v2". -/
def identityV2Entry : CanonEntry :=
  { content := "second identity", source := "system_init", confidence := 1,
    confirmed_by_user := true, last_verified := "t0", nspace := "identity_v2" }

/-! Helper lemmas about the embedded operations. -/

theorem lookupCanon_dictInsert (k : String) (v : CanonEntry) (d : List (String × CanonEntry)) :
    lookupCanon (dictInsert k v d) k = some v := by
  unfold dictInsert lookupCanon
  by_cases h : d.any (fun p => p.1 == k) = true
  · rw [if_pos h]
    induction d with
    | nil => simp at h
    | cons p rest ih =>
      rw [List.map_cons]
      by_cases hp : (p.1 == k) = true
      · rw [if_pos hp]
        simp only [List.find?, beq_self_eq_true]
        rfl
      · have hp' : (p.1 == k) = false := by simpa using hp
        rw [if_neg hp]
        simp only [List.find?, hp']
        apply ih
        simp only [List.any_cons, Bool.or_eq_true] at h
        exact h.resolve_left hp
  · rw [if_neg h]
    induction d with
    | nil =>
      rw [List.nil_append]
      simp only [List.find?, beq_self_eq_true]
      rfl
    | cons p rest ih =>
      have hp : ¬((p.1 == k) = true) := fun hpk => h (by simp [List.any_cons, hpk])
      have hp' : (p.1 == k) = false := by simpa using hp
      have hr : ¬(rest.any (fun p => p.1 == k) = true) := fun hrk =>
        h (by simp [List.any_cons, hrk])
      rw [List.cons_append]
      simp only [List.find?, hp']
      exact ih hr

theorem any_filter_eq_false {α : Type} (l : List α) (p q : α → Bool)
    (h : l.any p = false) : (l.filter q).any p = false := by
  rw [Bool.eq_false_iff]
  intro hany
  rw [List.any_eq_true] at hany
  obtain ⟨x, hx, hpx⟩ := hany
  rw [List.mem_filter] at hx
  have : l.any p = true := List.any_eq_true.mpr ⟨x, hx.1, hpx⟩
  rw [h] at this
  exact Bool.false_ne_true this

theorem strStartsWith_append (a b : String) : strStartsWith (a ++ b) a = true := by
  unfold strStartsWith
  rw [List.isPrefixOf_iff_prefix, String.data_append]
  exact List.prefix_append a.data b.data

theorem strStartsWith_iff_exists (s pat : String) :
    strStartsWith s pat = true ↔ ∃ t : String, s = pat ++ t := by
  constructor
  · intro h
    unfold strStartsWith at h
    rw [List.isPrefixOf_iff_prefix] at h
    obtain ⟨l, hl⟩ := h
    refine ⟨⟨l⟩, String.ext ?_⟩
    rw [String.data_append]
    exact hl.symm
  · rintro ⟨t, rfl⟩
    exact strStartsWith_append pat t

/-! Claim C1. -/

/-- C1 counterexample: the claim states that `write_canon` on a present
`(namespace,key)` fails with `AlreadyExists` and leaves the stored entry
unchanged.  On the code, a second `write_canon` to the already present key
`standards/memory_rules` returns normally with the entry id and silently
replaces the stored content. -/
theorem C1_counterexample :
    (write_canon
      { canon := [("standards/memory_rules",
          { content := "old rules", source := "system_init", confidence := 1,
            confirmed_by_user := true, last_verified := "t0", nspace := "standards" })],
        buffer := [], disputes := [], tasks := [], scratch := [] }
      "standards" "memory_rules" "new rules" "rogue_writer" 1 false "t1").2
      = "standards/memory_rules"
    ∧ lookupCanon (write_canon
      { canon := [("standards/memory_rules",
          { content := "old rules", source := "system_init", confidence := 1,
            confirmed_by_user := true, last_verified := "t0", nspace := "standards" })],
        buffer := [], disputes := [], tasks := [], scratch := [] }
      "standards" "memory_rules" "new rules" "rogue_writer" 1 false "t1").1.canon
      "standards/memory_rules"
      = some { content := "new rules", source := "rogue_writer", confidence := 1,
               confirmed_by_user := false, last_verified := "t1", nspace := "standards" } := by
  constructor
  · rfl
  · decide

/-- C1 amended: `write_canon` never fails; for every prior state it writes
the given entry under `namespace/key`, silently replacing any entry already
stored at that key, and returns the entry id.  The no-overwrite guarantee is
enforced only by the promotion engine, which rejects a promote decision
whose target key exists, not by the storage layer. -/
theorem C1_write_canon_always_overwrites (st : MemoryStore) (ns k c s : String)
    (conf : ℚ) (cu : Bool) (now : String) :
    (write_canon st ns k c s conf cu now).2 = ns ++ "/" ++ k
    ∧ lookupCanon (write_canon st ns k c s conf cu now).1.canon (ns ++ "/" ++ k)
      = some { content := c, source := s, confidence := conf,
               confirmed_by_user := cu, last_verified := now, nspace := ns } := by
  exact ⟨rfl, lookupCanon_dictInsert _ _ _⟩

/-! Claim C2. -/

theorem curator_promote_buffer (st : MemoryStore) (inp : PromoteInput) (n : String) :
    (curator_promote st inp n).1.buffer = st.buffer
    ∨ (curator_promote st inp n).1.buffer
      = st.buffer.map (fun r => if r.id == inp.entry_id.getD ""
          then { r with promoted := true } else r) := by
  unfold curator_promote
  dsimp only
  split
  · exact Or.inl rfl
  · split
    · exact Or.inl rfl
    · exact Or.inr rfl

theorem dispatch_buffer_track (st : MemoryStore) (d : Decision) (u n : String) :
    ∀ e1 ∈ ((curator_dispatch st d u n).1).buffer,
      ∃ e ∈ st.buffer, e1.id = e.id
        ∧ (e1.promoted = true → (e.promoted = true ∨ promoteTargets d e.id = true))
        ∧ (e1.dismissed = true → (e.dismissed = true ∨ dismissTargets d e.id = true)) := by
  intro e1 h1
  cases d with
  | promote inp =>
    have h1' : e1 ∈ (curator_promote st inp n).1.buffer := h1
    rcases curator_promote_buffer st inp n with hb | hb
    · rw [hb] at h1'
      exact ⟨e1, h1', rfl, fun hp => Or.inl hp, fun hd => Or.inl hd⟩
    · rw [hb] at h1'
      obtain ⟨e, he, heq⟩ := List.mem_map.mp h1'
      by_cases hid : (e.id == inp.entry_id.getD "") = true
      · rw [if_pos hid] at heq
        subst heq
        refine ⟨e, he, rfl, fun _ => Or.inr ?_, fun hd => Or.inl hd⟩
        have : e.id = inp.entry_id.getD "" := by simpa using hid
        simp [promoteTargets, this]
      · rw [if_neg hid] at heq
        subst heq
        exact ⟨e, he, rfl, fun hp => Or.inl hp, fun hd => Or.inl hd⟩
  | flagConflict inp =>
    exact ⟨e1, h1, rfl, fun hp => Or.inl hp, fun hd => Or.inl hd⟩
  | dismiss inp =>
    have h1' : e1 ∈ st.buffer.map (fun r => if r.id == inp.entry_id.getD ""
        then { r with dismissed := true } else r) := h1
    obtain ⟨e, he, heq⟩ := List.mem_map.mp h1'
    by_cases hid : (e.id == inp.entry_id.getD "") = true
    · rw [if_pos hid] at heq
      subst heq
      refine ⟨e, he, rfl, fun hp => Or.inl hp, fun _ => Or.inr ?_⟩
      have : e.id = inp.entry_id.getD "" := by simpa using hid
      simp [dismissTargets, this]
    · rw [if_neg hid] at heq
      subst heq
      exact ⟨e, he, rfl, fun hp => Or.inl hp, fun hd => Or.inl hd⟩
  | unknown toolName =>
    exact ⟨e1, h1, rfl, fun hp => Or.inl hp, fun hd => Or.inl hd⟩

/-- C2 counterexample: the claim states that an entry never ends with
`promoted = true` and `dismissed = true` and that the engine rejects a
promote decision on an already dismissed entry.  On the code, dismissing
`sampleEntry` and then promoting it leaves the entry with both flags set,
and the promote decision is answered with the success message, not a
rejection. -/
theorem C2_counterexample :
    ((apply_decisions samplePending
        [(Decision.dismiss ⟨some "aaaa0001", some "speculative"⟩, "u1", "t1"),
         (Decision.promote ⟨some "aaaa0001", some "facts", some "X", some sampleConf⟩,
           "u2", "t2")]).buffer.any
      (fun e => e.promoted && e.dismissed)) = true
    ∧ (curator_dispatch
        (curator_dispatch samplePending
          (Decision.dismiss ⟨some "aaaa0001", some "speculative"⟩) "u1" "t1").1
        (Decision.promote ⟨some "aaaa0001", some "facts", some "X", some sampleConf⟩)
        "u2" "t2").2
      = "[Curator] Promoted buffer:aaaa0001 → Canon[facts/X] (conf=0.80)" := by
  exact ⟨by decide, by decide⟩

/-- C2 amended: the engine checks only entry existence and canon conflicts,
not the terminal flags, so a promote decision on an already dismissed entry
(or a dismiss on an already promoted one) is applied and yields an entry
with both flags set.  The exclusivity invariant does hold for every decision
sequence in which no buffer entry both (is already promoted or is targeted
by a promote decision) and (is already dismissed or is targeted by a dismiss
decision). -/
theorem C2_flag_exclusivity (st : MemoryStore) (ds : List (Decision × String × String))
    (h : ∀ e ∈ st.buffer,
      ¬((e.promoted = true ∨ ∃ d ∈ ds, promoteTargets d.1 e.id = true)
        ∧ (e.dismissed = true ∨ ∃ d ∈ ds, dismissTargets d.1 e.id = true))) :
    (apply_decisions st ds).buffer.all (fun e => !(e.promoted && e.dismissed)) = true := by
  rw [List.all_eq_true]
  induction ds generalizing st with
  | nil =>
    intro e1 he1
    have he1' : e1 ∈ st.buffer := he1
    have := h e1 he1'
    rcases hp : e1.promoted with _ | _
    · simp [hp]
    · rcases hd : e1.dismissed with _ | _
      · simp [hp, hd]
      · exact absurd ⟨Or.inl hp, Or.inl hd⟩ this
  | cons d ds ih =>
    intro e1 he1
    have hstep : e1 ∈ (apply_decisions (curator_dispatch st d.1 d.2.1 d.2.2).1 ds).buffer :=
      he1
    refine ih (curator_dispatch st d.1 d.2.1 d.2.2).1 ?_ e1 hstep
    intro e2 he2
    obtain ⟨e, he, hid, hpr, hdi⟩ := dispatch_buffer_track st d.1 d.2.1 d.2.2 e2 he2
    rintro ⟨P2, D2⟩
    refine h e he ⟨?_, ?_⟩
    · rcases P2 with hp2 | ⟨d2, hd2, ht2⟩
      · rcases hpr hp2 with h0 | h0
        · exact Or.inl h0
        · exact Or.inr ⟨d, List.mem_cons_self d (d :: ds).tail, h0⟩
      · rw [hid] at ht2
        exact Or.inr ⟨d2, List.mem_cons_of_mem d hd2, ht2⟩
    · rcases D2 with hd2 | ⟨d2, hd2m, ht2⟩
      · rcases hdi hd2 with h0 | h0
        · exact Or.inl h0
        · exact Or.inr ⟨d, List.mem_cons_self d (d :: ds).tail, h0⟩
      · rw [hid] at ht2
        exact Or.inr ⟨d2, List.mem_cons_of_mem d hd2m, ht2⟩

/-- C2 witness: a concrete run of the amended exclusivity theorem on a store
with one pending entry and a single promote decision. -/
theorem C2_witness :
    (apply_decisions samplePending
      [(Decision.promote ⟨some "aaaa0001", some "facts", some "X", some sampleConf⟩,
        "u1", "t1")]).buffer.all (fun e => !(e.promoted && e.dismissed)) = true :=
  C2_flag_exclusivity samplePending
    [(Decision.promote ⟨some "aaaa0001", some "facts", some "X", some sampleConf⟩,
      "u1", "t1")] (by decide)

/-! Claim C3. -/

theorem mark_buffer_promoted_canon (st : MemoryStore) (i : String) :
    (mark_buffer_promoted st i).canon = st.canon := rfl

theorem mark_buffer_promoted_buffer (st : MemoryStore) (i : String) :
    (mark_buffer_promoted st i).buffer
      = st.buffer.map (fun r => if r.id == i then { r with promoted := true } else r) := rfl

theorem write_canon_buffer (st : MemoryStore) (ns k c s : String) (conf : ℚ)
    (cu : Bool) (now : String) :
    (write_canon st ns k c s conf cu now).1.buffer = st.buffer := rfl

theorem write_canon_canon (st : MemoryStore) (ns k c s : String) (conf : ℚ)
    (cu : Bool) (now : String) :
    (write_canon st ns k c s conf cu now).1.canon
      = dictInsert (ns ++ "/" ++ k)
          { content := c, source := s, confidence := conf, confirmed_by_user := cu,
            last_verified := now, nspace := ns } st.canon := rfl

theorem read_canon_any_eq_true (st : MemoryStore) (ns key : String)
    (hkey : st.canon.any (fun p => p.1 == ns ++ "/" ++ key) = true) :
    (read_canon st (some ns)).any (fun p => p.1 == ns ++ "/" ++ key) = true := by
  unfold read_canon
  dsimp only
  by_cases hns : ns = ""
  · rw [if_pos hns]; exact hkey
  · rw [if_neg hns]
    rw [List.any_eq_true] at hkey ⊢
    obtain ⟨p, hp, hpk⟩ := hkey
    refine ⟨p, List.mem_filter.mpr ⟨hp, ?_⟩, hpk⟩
    have hpe : p.1 = ns ++ "/" ++ key := by simpa using hpk
    rw [hpe]
    have := strStartsWith_append ns ("/" ++ key)
    rw [String.append_assoc]
    exact this

theorem read_canon_any_eq_false (st : MemoryStore) (ns k2 : String)
    (h : st.canon.any (fun p => p.1 == k2) = false) :
    (read_canon st (some ns)).any (fun p => p.1 == k2) = false := by
  unfold read_canon
  dsimp only
  by_cases hns : ns = ""
  · rw [if_pos hns]; exact h
  · rw [if_neg hns]; exact any_filter_eq_false _ _ _ h

/-- C3: a promote decision whose resolved target key `namespace/key` is
already present in the canon leaves the whole store untouched and returns
exactly the rejection message that instructs the oracle to use the conflict
path (`flag_conflict`); in particular the referenced buffer entry keeps its
flags. -/
theorem C3_conflict_rejection (st : MemoryStore) (inp : PromoteInput) (u n : String)
    (hfound : (st.buffer.find? (fun e => e.id == inp.entry_id.getD "")).isSome = true)
    (hkey : st.canon.any (fun p =>
      p.1 == (inp.nspace.getD "facts") ++ "/" ++ (inp.key.getD (inp.entry_id.getD "")))
      = true) :
    curator_dispatch st (.promote inp) u n
      = (st, "[Curator] Canon["
          ++ ((inp.nspace.getD "facts") ++ "/" ++ (inp.key.getD (inp.entry_id.getD "")))
          ++ "] already exists. Use flag_conflict if there is a discrepancy.") := by
  obtain ⟨entry, hf⟩ := Option.isSome_iff_exists.mp hfound
  unfold curator_dispatch curator_promote
  dsimp only
  have hf' : (read_buffer st none none).find? (fun e => e.id == inp.entry_id.getD "")
      = some entry := hf
  rw [hf']
  dsimp only
  rw [if_pos (read_canon_any_eq_true st _ _ hkey)]

/-- C3 witness: a concrete promote decision against `sampleConflict`, whose
canon already holds "facts/X". -/
theorem C3_witness :
    curator_dispatch sampleConflict
      (.promote ⟨some "aaaa0001", some "facts", some "X", some sampleConf⟩) "u1" "t1"
      = (sampleConflict, "[Curator] Canon[" ++ ("facts" ++ "/" ++ "X")
          ++ "] already exists. Use flag_conflict if there is a discrepancy.") :=
  C3_conflict_rejection sampleConflict
    ⟨some "aaaa0001", some "facts", some "X", some sampleConf⟩ "u1" "t1"
    (by decide) (by decide)

/-! Claim C4. -/

/-- C4: if the buffer resolves id `a` to an entry claiming "X=5" and the
canon has no "facts/X", the decision promote(a, "facts", "X", 0.8) leaves
the canon with "facts/X" whose content is "X=5", and every buffer record
with id `a` is marked promoted. -/
theorem C4_promote_success (st : MemoryStore) (a : String) (e : BufferRecord)
    (u n : String)
    (hfind : st.buffer.find? (fun r => r.id == a) = some e)
    (hclaim : e.claim = "X=5")
    (hno : st.canon.any (fun p => p.1 == "facts/X") = false) :
    (lookupCanon (curator_dispatch st
        (.promote ⟨some a, some "facts", some "X", some sampleConf⟩) u n).1.canon
      "facts/X").map (fun c => c.content) = some "X=5"
    ∧ (curator_dispatch st
        (.promote ⟨some a, some "facts", some "X", some sampleConf⟩) u n).1.buffer.all
      (fun r => !(r.id == a) || r.promoted) = true := by
  unfold curator_dispatch curator_promote
  simp only [Option.getD]
  have hf' : (read_buffer st none none).find? (fun r => r.id == a) = some e := hfind
  rw [hf']
  dsimp only
  have hkey : ("facts" ++ "/" ++ "X") = "facts/X" := rfl
  have hnone : (read_canon st (some "facts")).any
      (fun p => p.1 == "facts" ++ "/" ++ "X") = false := by
    rw [hkey]
    exact read_canon_any_eq_false st "facts" "facts/X" hno
  rw [if_neg (by rw [hnone]; exact Bool.false_ne_true)]
  constructor
  · dsimp only
    rw [mark_buffer_promoted_canon, write_canon_canon, hkey, lookupCanon_dictInsert,
      hclaim]
    rfl
  · dsimp only
    rw [mark_buffer_promoted_buffer, write_canon_buffer]
    rw [List.all_eq_true]
    intro r1 hr1
    obtain ⟨r, hr, heq⟩ := List.mem_map.mp hr1
    by_cases hid : (r.id == a) = true
    · rw [if_pos hid] at heq
      subst heq
      simp
    · rw [if_neg hid] at heq
      subst heq
      have : (r.id == a) = false := by simpa using hid
      simp [this]

/-- C4 witness: the concrete scenario of the spec, run on `samplePending`. -/
theorem C4_witness :
    (lookupCanon (curator_dispatch samplePending
        (.promote ⟨some "aaaa0001", some "facts", some "X", some sampleConf⟩)
        "u1" "t1").1.canon "facts/X").map (fun c => c.content) = some "X=5"
    ∧ (curator_dispatch samplePending
        (.promote ⟨some "aaaa0001", some "facts", some "X", some sampleConf⟩)
        "u1" "t1").1.buffer.all (fun r => !(r.id == "aaaa0001") || r.promoted) = true :=
  C4_promote_success samplePending "aaaa0001" sampleEntry "u1" "t1"
    (by decide) (by decide) (by decide)

/-! Claim C5. -/

/-- C5 counterexample: the claim states the provenance written on promotion
is "buffer:<entry_id>|curator_promoted".  On the code, promoting
`sampleEntry` (id "aaaa0001", source "web_search") stores provenance built
from the entry's source field, "buffer:web_search|curator_promoted", not
from its id. -/
theorem C5_counterexample :
    (lookupCanon (curator_promote samplePending
        ⟨some "aaaa0001", some "facts", some "X", some sampleConf⟩ "t1").1.canon
      "facts/X").map (fun c => c.source)
      = some "buffer:web_search|curator_promoted"
    ∧ (lookupCanon (curator_promote samplePending
        ⟨some "aaaa0001", some "facts", some "X", some sampleConf⟩ "t1").1.canon
      "facts/X").map (fun c => c.source)
      ≠ some "buffer:aaaa0001|curator_promoted" := by
  exact ⟨by decide, by decide⟩

/-- C5 amended: for every successful promote decision resolving to buffer
entry `e`, the canon entry written has source (provenance) equal to
"buffer:" ++ e.source ++ "|curator_promoted", built from the entry's source
field rather than its id. -/
theorem C5_provenance (st : MemoryStore) (inp : PromoteInput) (n : String)
    (e : BufferRecord)
    (hfind : st.buffer.find? (fun r => r.id == inp.entry_id.getD "") = some e)
    (hno : st.canon.any (fun p => p.1 ==
      (inp.nspace.getD "facts") ++ "/" ++ (inp.key.getD (inp.entry_id.getD "")))
      = false) :
    (lookupCanon (curator_promote st inp n).1.canon
      ((inp.nspace.getD "facts") ++ "/" ++ (inp.key.getD (inp.entry_id.getD "")))).map
      (fun c => c.source)
      = some ("buffer:" ++ e.source ++ "|curator_promoted") := by
  unfold curator_promote
  dsimp only
  have hf' : (read_buffer st none none).find?
      (fun r => r.id == inp.entry_id.getD "") = some e := hfind
  rw [hf']
  dsimp only
  have hnone : (read_canon st (some (inp.nspace.getD "facts"))).any
      (fun p => p.1 == (inp.nspace.getD "facts") ++ "/"
        ++ (inp.key.getD (inp.entry_id.getD ""))) = false :=
    read_canon_any_eq_false st _ _ hno
  rw [if_neg (by rw [hnone]; exact Bool.false_ne_true)]
  dsimp only
  rw [mark_buffer_promoted_canon, write_canon_canon, lookupCanon_dictInsert]
  rfl

/-- C5 witness: the amended provenance theorem run on `samplePending`. -/
theorem C5_witness :
    (lookupCanon (curator_promote samplePending
        ⟨some "aaaa0001", some "facts", some "X", some sampleConf⟩ "t1").1.canon
      (("facts") ++ "/" ++ "X")).map (fun c => c.source)
      = some ("buffer:" ++ "web_search" ++ "|curator_promoted") :=
  C5_provenance samplePending
    ⟨some "aaaa0001", some "facts", some "X", some sampleConf⟩ "t1" sampleEntry
    (by decide) (by decide)

/-! Claim C6. -/

/-- C6: when every buffer entry of the task is already promoted or
dismissed (so no entry is pending), `curate_task` returns the no-op summary
string and the store — canon, buffer, disputes, task ledger, scratch — is
returned unchanged; no error is raised and the oracle's decisions are never
applied. -/
theorem C6_curate_task_noop (st : MemoryStore) (t : String) (oracle : OracleCall)
    (h : ∀ e ∈ st.buffer, e.task_id = t → (e.promoted = true ∨ e.dismissed = true)) :
    curate_task st t oracle
      = (st, "[Curator] No buffer entries to curate for task " ++ t ++ ".") := by
  unfold curate_task
  have hpend : (read_buffer st (some t) (some false)).filter (fun e => !e.dismissed)
      = [] := by
    rw [List.filter_eq_nil_iff]
    intro e he
    unfold read_buffer at he
    dsimp only at he
    rw [List.mem_filter] at he
    obtain ⟨he1, hp⟩ := he
    rw [List.mem_filter] at he1
    obtain ⟨hbuf, ht⟩ := he1
    have htid : e.task_id = t := by simpa using ht
    have hpf : e.promoted = false := by simpa using hp
    rcases h e hbuf htid with hP | hD
    · rw [hP] at hpf
      exact Bool.noConfusion hpf
    · simp [hD]
  dsimp only
  rw [hpend]
  rfl

/-- C6 witness: curating task T1 on a store whose only T1 entry is already
promoted. -/
theorem C6_witness :
    curate_task samplePromotedOnly "T1" ⟨[], "unused oracle text"⟩
      = (samplePromotedOnly,
         "[Curator] No buffer entries to curate for task " ++ "T1" ++ ".") :=
  C6_curate_task_noop samplePromotedOnly "T1" ⟨[], "unused oracle text"⟩ (by decide)

/-! Claim C7. -/

/-- C7: marking a buffer id that no record carries is a silent no-op — the
store is returned identical, with no record created and no other entry
touched — and both mark operations are idempotent. -/
theorem C7_mark_tolerant_idempotent (st : MemoryStore) (i : String) :
    ((∀ e ∈ st.buffer, e.id ≠ i) →
      (mark_buffer_promoted st i = st ∧ mark_buffer_dismissed st i = st))
    ∧ mark_buffer_promoted (mark_buffer_promoted st i) i = mark_buffer_promoted st i
    ∧ mark_buffer_dismissed (mark_buffer_dismissed st i) i
        = mark_buffer_dismissed st i := by
  refine ⟨fun h => ⟨?_, ?_⟩, ?_, ?_⟩
  · unfold mark_buffer_promoted
    have hm : st.buffer.map
        (fun r => if r.id == i then { r with promoted := true } else r) = st.buffer := by
      conv_rhs => rw [← List.map_id st.buffer]
      apply List.map_congr_left
      intro r hr
      rw [if_neg (by simp [h r hr])]
      rfl
    rw [hm]
  · unfold mark_buffer_dismissed
    have hm : st.buffer.map
        (fun r => if r.id == i then { r with dismissed := true } else r) = st.buffer := by
      conv_rhs => rw [← List.map_id st.buffer]
      apply List.map_congr_left
      intro r hr
      rw [if_neg (by simp [h r hr])]
      rfl
    rw [hm]
  · unfold mark_buffer_promoted
    dsimp only
    congr 1
    rw [List.map_map]
    apply List.map_congr_left
    intro r hr
    by_cases hid : (r.id == i) = true
    · simp only [Function.comp_apply]
      rw [if_pos hid]
      dsimp only
      rw [if_pos hid]
    · simp only [Function.comp_apply]
      rw [if_neg hid, if_neg hid]
  · unfold mark_buffer_dismissed
    dsimp only
    congr 1
    rw [List.map_map]
    apply List.map_congr_left
    intro r hr
    by_cases hid : (r.id == i) = true
    · simp only [Function.comp_apply]
      rw [if_pos hid]
      dsimp only
      rw [if_pos hid]
    · simp only [Function.comp_apply]
      rw [if_neg hid, if_neg hid]

/-- C7 witness: both mark operations at the absent id "zzzz9999" on
`samplePending`, and their idempotence there. -/
theorem C7_witness :
    (mark_buffer_promoted samplePending "zzzz9999" = samplePending
      ∧ mark_buffer_dismissed samplePending "zzzz9999" = samplePending)
    ∧ mark_buffer_promoted (mark_buffer_promoted samplePending "zzzz9999") "zzzz9999"
        = mark_buffer_promoted samplePending "zzzz9999"
    ∧ mark_buffer_dismissed (mark_buffer_dismissed samplePending "zzzz9999") "zzzz9999"
        = mark_buffer_dismissed samplePending "zzzz9999" :=
  ⟨(C7_mark_tolerant_idempotent samplePending "zzzz9999").1 (by decide),
   (C7_mark_tolerant_idempotent samplePending "zzzz9999").2⟩

/-! Claim C8. -/

/-- C8: the buffer query returns exactly the records matching the provided
filters by equality — it equals a single filter over the log — it is a
sublist of the log (so in insertion order, never reordered), and a
subsequent append extends a fixed query's result at the end only. -/
theorem C8_query_exact_filter_in_order (st : MemoryStore) (tid : Option String)
    (p : Option Bool) (c s a t : String) (conf : ℚ) (u now : String) :
    read_buffer st tid p = st.buffer.filter (fun r =>
        (tid.all fun t0 => r.task_id == t0) && (p.all fun b => r.promoted == b))
    ∧ (read_buffer st tid p).Sublist st.buffer
    ∧ read_buffer (add_to_buffer st c s a t conf u now).1 tid p
      = read_buffer st tid p
        ++ List.filter (fun r =>
            (tid.all fun t0 => r.task_id == t0) && (p.all fun b => r.promoted == b))
          [{ id := strTake u 8, claim := c, source := s, agent := a, task_id := t,
             confidence := conf, timestamp := now, promoted := false,
             dismissed := false }] := by
  have hgen : ∀ stx : MemoryStore, read_buffer stx tid p = stx.buffer.filter (fun r =>
      (tid.all fun t0 => r.task_id == t0) && (p.all fun b => r.promoted == b)) := by
    intro stx
    unfold read_buffer
    cases tid with
    | none =>
      cases p with
      | none => simp [Option.all]
      | some b => simp [Option.all]
    | some t0 =>
      cases p with
      | some b =>
        dsimp only [Option.all]
        rw [List.filter_filter]
        exact List.filter_congr fun x _ => Bool.and_comm _ _
      | none => simp [Option.all]
  refine ⟨hgen st, ?_, ?_⟩
  · rw [hgen st]
    exact List.filter_sublist _
  · rw [hgen, hgen]
    have hb : (add_to_buffer st c s a t conf u now).1.buffer
        = st.buffer ++
          [{ id := strTake u 8, claim := c, source := s, agent := a, task_id := t,
             confidence := conf, timestamp := now, promoted := false,
             dismissed := false }] := rfl
    rw [hb, List.filter_append]

/-! Claim C9. -/

/-- C9 counterexample: the claim states the id returned by a buffer append
is distinct from every previously created id.  The id is the first 8
characters of the generated UUID string, so two distinct, well-formed UUID
values that agree on their first 8 characters — a possible outcome of the
generator, which the code never guards against — give the same id
"deadbeef" to two different entries. -/
theorem C9_counterexample :
    "deadbeef-1111-4aaa-8bbb-000000000001" ≠ "deadbeef-2222-4ccc-8ddd-000000000002"
    ∧ (add_to_buffer
        (add_to_buffer samplePending "claim one" "web_search" "ResearchAgent" "T1"
          halfConf "deadbeef-1111-4aaa-8bbb-000000000001" "t1").1
        "claim two" "web_search" "ResearchAgent" "T1" halfConf
        "deadbeef-2222-4ccc-8ddd-000000000002" "t2").2
      = (add_to_buffer samplePending "claim one" "web_search" "ResearchAgent" "T1"
          halfConf "deadbeef-1111-4aaa-8bbb-000000000001" "t1").2 := by
  exact ⟨by decide, by decide⟩

/-- C9 amended: every append succeeds regardless of the claim content,
appending exactly one record, and the returned id is the first 8 characters
of the generated UUID string — so ids are fresh and unique only to the
extent that the generated UUID values differ in their first 8 characters;
the code performs no uniqueness check. -/
theorem C9_append_always_succeeds (st : MemoryStore) (c s a t : String) (conf : ℚ)
    (u now : String) :
    (add_to_buffer st c s a t conf u now).2 = strTake u 8
    ∧ (add_to_buffer st c s a t conf u now).1.buffer
      = st.buffer ++
        [{ id := strTake u 8, claim := c, source := s, agent := a, task_id := t,
           confidence := conf, timestamp := now, promoted := false,
           dismissed := false }]
    ∧ (add_to_buffer st c s a t conf u now).1.canon = st.canon
    ∧ (add_to_buffer st c s a t conf u now).1.disputes = st.disputes :=
  ⟨rfl, rfl, rfl, rfl⟩

/-! Claim C10. -/

/-- C10: the namespace-filtered canon read selects entries whose full
"namespace/key" identifier has the given argument as a string prefix, not
those whose namespace equals it: an entry is returned exactly when its full
key extends the argument, and in particular reading namespace "identity"
also returns an entry stored under "identity_v2/system". -/
theorem C10_namespace_read_is_prefix_match (st : MemoryStore) (ns : String) :
    (∀ kv : String × CanonEntry,
      kv ∈ read_canon st (some ns) ↔ kv ∈ st.canon ∧ ∃ t2 : String, kv.1 = ns ++ t2)
    ∧ ("identity_v2/system", identityV2Entry)
        ∈ read_canon
          { canon := [("identity_v2/system", identityV2Entry)], buffer := [],
            disputes := [], tasks := [], scratch := [] } (some "identity") := by
  constructor
  · intro kv
    unfold read_canon
    dsimp only
    by_cases hns : ns = ""
    · rw [if_pos hns]
      subst hns
      constructor
      · intro h
        exact ⟨h, kv.1, (String.empty_append kv.1).symm⟩
      · rintro ⟨h, -⟩
        exact h
    · rw [if_neg hns]
      rw [List.mem_filter]
      exact and_congr_right fun _ => strStartsWith_iff_exists kv.1 ns
  · decide

end DataWirx
